import Mathlib

/-!
Shallow embedding of `quantcli/qc_validator.py` (class `QuantConnectValidator`)
and proofs about its line-oriented heuristic checks.

Python strings are modelled as `List Char`; Python list indexing (which accepts
negative indices and raises on out-of-range access) is modelled by an
`Option`-valued accessor, and every function that performs such an access is
`Option`-valued, so that the no-throw property is an actual theorem.
The regex character classes `\w` and `\s` are modelled on their ASCII subsets.
-/

/-- Python strings, modelled as lists of characters. -/
abbrev Str := List Char

/-- ASCII model of the Python regex class \w (word characters). -/
def isWordChar (c : Char) : Bool :=
  decide ('a' ≤ c ∧ c ≤ 'z') || decide ('A' ≤ c ∧ c ≤ 'Z') ||
    decide ('0' ≤ c ∧ c ≤ '9') || c == '_'

/-- ASCII model of the Python regex class \s, also used for str.strip whitespace. -/
def isSpaceChar (c : Char) : Bool :=
  c == ' ' || c == '\t' || c == '\n' || c == '\r' || c == '\x0b' || c == '\x0c'

/-- Python `pat in s` on strings: substring containment. -/
def substr (pat : Str) : Str → Bool
  | [] => pat.isEmpty
  | c :: rest => pat.isPrefixOf (c :: rest) || substr pat rest

/-- `line.strip().startswith('#')` from the source: the line is a comment. -/
def isCommentLine (line : Str) : Bool :=
  match line.dropWhile isSpaceChar with
  | '#' :: _ => true
  | _ => false

/-- Python `code.split('\n')`: split on every newline, keeping empty pieces. -/
def splitLines : Str → List Str
  | [] => [[]]
  | c :: rest =>
    if c == '\n' then [] :: splitLines rest
    else
      match splitLines rest with
      | [] => [[c]]
      | l :: ls => (c :: l) :: ls

theorem splitLines_ne_nil (s : Str) : splitLines s ≠ [] := by
  induction s with
  | nil => simp [splitLines]
  | cons c rest ih =>
    simp only [splitLines]
    split
    · simp
    · split <;> simp

theorem isPrefixOf_self {α : Type} [BEq α] [LawfulBEq α] :
    ∀ l : List α, l.isPrefixOf l = true := by
  intro l
  induction l with
  | nil => rfl
  | cons a t ih => simp [List.isPrefixOf, ih]

theorem substr_append_left : ∀ pre mid : Str, substr mid (pre ++ mid) = true := by
  intro pre
  induction pre with
  | nil =>
    intro mid
    cases mid with
    | nil => rfl
    | cons c cs => simp [substr, isPrefixOf_self]
  | cons p ps ih =>
    intro mid
    simp [substr, ih mid]

/-- In-range line access with a default, `(lines.get? k).getD []`. -/
def lineAt (lines : List Str) (k : Nat) : Str := (lines.get? k).getD []

theorem get?_isSome_of_lt {α : Type} :
    ∀ (l : List α) (n : Nat), n < l.length → (l.get? n).isSome = true := by
  intro l
  induction l with
  | nil => intro n h; exact absurd h (Nat.not_lt_zero n)
  | cons a t ih =>
    intro n h
    cases n with
    | zero => rfl
    | succ m => exact ih m (Nat.lt_of_succ_lt_succ h)

theorem eq_some_getD {α : Type} (o : Option α) (d : α) (h : o.isSome = true) :
    o = some (o.getD d) := by
  cases o with
  | none => cases h
  | some a => rfl

/-- Python list indexing `xs[k]`: a negative index counts from the end; an
    out-of-range access raises IndexError, modelled as `none`. -/
def pyGet {α : Type} (xs : List α) : Int → Option α
  | Int.ofNat m => xs.get? m
  | Int.negSucc m => if m < xs.length then xs.get? (xs.length - 1 - m) else none

theorem pyGet_neg_one {α : Type} (xs : List α) (hne : xs ≠ []) :
    pyGet xs (-1) = some (xs.getLast hne) := by
  induction xs with
  | nil => exact absurd rfl hne
  | cons a t ih =>
    cases t with
    | nil => rfl
    | cons b t2 =>
      show pyGet (a :: b :: t2) (-1) = _
      have hlast : (a :: b :: t2).getLast hne = (b :: t2).getLast (by simp) :=
        List.getLast_cons (by simp)
      rw [hlast]
      rw [← ih (by simp)]
      show (if 0 < (a :: b :: t2).length then (a :: b :: t2).get? ((a :: b :: t2).length - 1 - 0) else none)
        = pyGet (b :: t2) (-1)
      rw [if_pos (by simp)]
      show (a :: b :: t2).get? (t2.length + 2 - 1 - 0) = pyGet (b :: t2) (-1)
      have h2 : t2.length + 2 - 1 - 0 = t2.length + 1 := by omega
      rw [h2]
      show (b :: t2).get? t2.length = pyGet (b :: t2) (-1)
      show (b :: t2).get? t2.length
        = if 0 < (b :: t2).length then (b :: t2).get? ((b :: t2).length - 1 - 0) else none
      rw [if_pos (by simp)]
      have h3 : (b :: t2).length - 1 - 0 = t2.length := by simp
      rw [h3]

/-- The line the source's lookback examines at loop index j: Python `lines[j-1]`,
    i.e. the last line when j = 0 and physical line j (1-based) when j ≥ 1. -/
def lookbackLine (lines : List Str) (j : Nat) : Str :=
  (pyGet lines ((j : Int) - 1)).getD []

theorem pyGet_lookback_isSome (lines : List Str) (hne : lines ≠ []) (j : Nat)
    (hj : j ≤ lines.length) : (pyGet lines ((j : Int) - 1)).isSome = true := by
  by_cases hj0 : j = 0
  · subst hj0
    rw [show ((0 : Nat) : Int) - 1 = -1 by decide, pyGet_neg_one lines hne]
    rfl
  · obtain ⟨m, rfl⟩ := Nat.exists_eq_succ_of_ne_zero hj0
    rw [show ((m + 1 : Nat) : Int) - 1 = (m : Int) by omega]
    exact get?_isSome_of_lt lines m (by omega)

theorem pyGet_lookback (lines : List Str) (hne : lines ≠ []) (j : Nat)
    (hj : j ≤ lines.length) :
    pyGet lines ((j : Int) - 1) = some (lookbackLine lines j) :=
  eq_some_getD _ [] (pyGet_lookback_isSome lines hne j hj)

/-- One guard-lookback loop from the source:
    `for j in range(lo, lo+cnt): if p(lines[j-1]): return True`, with the
    index error on `lines[j-1]` propagated as `none`. -/
def scanRange (lines : List Str) (p : Str → Bool) : Nat → Nat → Option Bool
  | _, 0 => some false
  | j, cnt + 1 =>
    match pyGet lines ((j : Int) - 1) with
    | none => none
    | some s => if p s then some true else scanRange lines p (j + 1) (cnt)

/-- Pure denotation of `scanRange`: does any examined line satisfy p. -/
def anyLookback (lines : List Str) (p : Str → Bool) : Nat → Nat → Bool
  | _, 0 => false
  | j, cnt + 1 => p (lookbackLine lines j) || anyLookback lines p (j + 1) (cnt)

/-- The guard scan of a check at 1-based line i with lookback window win:
    `for j in range(max(0, i-win), i)` testing `lines[j-1]`. -/
def guardScan (lines : List Str) (p : Str → Bool) (i win : Nat) : Option Bool :=
  scanRange lines p (i - win) (i - (i - win))

/-- Pure denotation of `guardScan`. -/
def guardFound (lines : List Str) (p : Str → Bool) (i win : Nat) : Bool :=
  anyLookback lines p (i - win) (i - (i - win))

theorem scanRange_eq (lines : List Str) (p : Str → Bool) (hne : lines ≠ []) :
    ∀ (cnt j : Nat), j + cnt ≤ lines.length + 1 →
      scanRange lines p j cnt = some (anyLookback lines p j cnt) := by
  intro cnt
  induction cnt with
  | zero => intro j _; rfl
  | succ n ih =>
    intro j h
    have hj : j ≤ lines.length := by omega
    simp only [scanRange, anyLookback, pyGet_lookback lines hne j hj]
    cases hcase : p (lookbackLine lines j) with
    | true => simp
    | false =>
      rw [if_neg (show ¬(false = true) by decide), Bool.false_or]
      exact ih (j + 1) (by omega)

theorem guardScan_eq (lines : List Str) (p : Str → Bool) (i win : Nat)
    (hne : lines ≠ []) (hi : i ≤ lines.length) :
    guardScan lines p i win = some (guardFound lines p i win) :=
  scanRange_eq lines p hne (i - (i - win)) (i - win) (by omega)

theorem anyLookback_iff (lines : List Str) (p : Str → Bool) :
    ∀ (cnt j : Nat),
      anyLookback lines p j cnt = true ↔
        ∃ t, t < cnt ∧ p (lookbackLine lines (j + t)) = true := by
  intro cnt
  induction cnt with
  | zero =>
    intro j
    constructor
    · intro h; cases h
    · rintro ⟨t, ht, _⟩; omega
  | succ n ih =>
    intro j
    simp only [anyLookback, Bool.or_eq_true, ih (j + 1)]
    constructor
    · rintro (h | ⟨t, ht, hp⟩)
      · exact ⟨0, by omega, by simpa using h⟩
      · refine ⟨t + 1, by omega, ?_⟩
        rw [show j + (t + 1) = j + 1 + t by omega]
        exact hp
    · rintro ⟨t, ht, hp⟩
      cases t with
      | zero => exact Or.inl (by simpa using hp)
      | succ m =>
        refine Or.inr ⟨m, by omega, ?_⟩
        rw [show j + 1 + m = j + (m + 1) by omega]
        exact hp

theorem guardFound_iff (lines : List Str) (p : Str → Bool) (i win : Nat) :
    guardFound lines p i win = true ↔
      ∃ j, j < i ∧ i - win ≤ j ∧ p (lookbackLine lines j) = true := by
  unfold guardFound
  rw [anyLookback_iff]
  constructor
  · rintro ⟨t, ht, hp⟩
    exact ⟨i - win + t, by omega, by omega, hp⟩
  · rintro ⟨j, hj1, hj2, hp⟩
    refine ⟨j - (i - win), by omega, ?_⟩
    rw [show i - win + (j - (i - win)) = j by omega]
    exact hp

/-- A validation issue from the source: severity, 1-based line, message, suggestion. -/
structure ValidationIssue where
  severity : Str
  line : Nat
  message : Str
  suggestion : Str
deriving DecidableEq

/-- Runs a per-line body over the 1-indexed lines (`enumerate(lines, 1)`),
    concatenating the issues each line appends and propagating an exception. -/
def runCheck (f : Nat → Str → Option (List ValidationIssue)) :
    Nat → List Str → Option (List ValidationIssue)
  | _, [] => some []
  | i, line :: rest =>
    match f i line with
    | none => none
    | some found =>
      match runCheck f (i + 1) rest with
      | none => none
      | some tail => some (found ++ tail)

/-- Pure denotation of `runCheck`: the concatenation of per-line issue lists. -/
def emitAll (g : Nat → List ValidationIssue) : Nat → Nat → List ValidationIssue
  | _, 0 => []
  | i, cnt + 1 => g i ++ emitAll g (i + 1) (cnt)

theorem runCheck_eq (f : Nat → Str → Option (List ValidationIssue))
    (g : Nat → List ValidationIssue) :
    ∀ (rest : List Str) (i : Nat),
      (∀ t line, rest.get? t = some line → f (i + t) line = some (g (i + t))) →
      runCheck f i rest = some (emitAll g i rest.length) := by
  intro rest
  induction rest with
  | nil => intro i _; rfl
  | cons line rest ih =>
    intro i h
    have h0 : f i line = some (g i) := by
      have := h 0 line rfl
      simpa using this
    have htail : runCheck f (i + 1) rest = some (emitAll g (i + 1) rest.length) := by
      apply ih
      intro t line' hget
      have := h (t + 1) line' hget
      rw [show i + (t + 1) = i + 1 + t by omega] at this
      exact this
    simp only [runCheck, h0, htail]
    rfl

theorem mem_emitAll (g : Nat → List ValidationIssue) :
    ∀ (cnt i : Nat) (x : ValidationIssue),
      x ∈ emitAll g i cnt ↔ ∃ k, i ≤ k ∧ k < i + cnt ∧ x ∈ g k := by
  intro cnt
  induction cnt with
  | zero =>
    intro i x
    constructor
    · intro h; cases h
    · rintro ⟨k, h1, h2, _⟩; omega
  | succ n ih =>
    intro i x
    simp only [emitAll, List.mem_append, ih (i + 1)]
    constructor
    · rintro (h | ⟨k, h1, h2, h3⟩)
      · exact ⟨i, Nat.le_refl i, by omega, h⟩
      · exact ⟨k, by omega, by omega, h3⟩
    · rintro ⟨k, h1, h2, h3⟩
      by_cases hk : k = i
      · subst hk; exact Or.inl h3
      · exact Or.inr ⟨k, by omega, by omega, h3⟩

theorem emitAll_nil : ∀ (cnt i : Nat), emitAll (fun _ => []) i cnt = [] := by
  intro cnt
  induction cnt with
  | zero => intro i; rfl
  | succ n ih => intro i; simpa [emitAll] using ih (i + 1)

/-- If each per-line issue list marks its own line number, membership in the
    whole run is membership at exactly the named line, within bounds. -/
theorem emitAll_line_mem_iff (g : Nat → List ValidationIssue) (L i : Nat)
    (hline : ∀ k x, x ∈ g k → x.line = k) :
    (∃ x, x ∈ emitAll g 1 L ∧ x.line = i) ↔
      (1 ≤ i ∧ i ≤ L ∧ ∃ x, x ∈ g i) := by
  constructor
  · rintro ⟨x, hx, hxi⟩
    rw [mem_emitAll] at hx
    obtain ⟨k, h1, h2, h3⟩ := hx
    have hk : x.line = k := hline k x h3
    have hik : k = i := by omega
    subst hik
    exact ⟨by omega, by omega, x, h3⟩
  · rintro ⟨h1, h2, x, hx⟩
    exact ⟨x, (mem_emitAll g L 1 x).mpr ⟨i, h1, by omega, hx⟩, hline i x hx⟩

/-- re.search(r'/\s*(\w+)', line): the first divisor token after a slash, if
    any. The classes \s and \w are disjoint, so the greedy skip never needs
    backtracking and the capture is the maximal word run. -/
def extractDivisor : Str → Option Str
  | [] => none
  | c :: rest =>
    if c == '/' then
      match (rest.dropWhile isSpaceChar).takeWhile isWordChar with
      | [] => extractDivisor rest
      | d :: ds => some (d :: ds)
    else extractDivisor rest

/-- The tail of the max/min regex, \s*\( . -/
def matchParen (rest : Str) : Bool :=
  match rest.dropWhile isSpaceChar with
  | '(' :: _ => true
  | _ => false

/-- One attempted match of \b(max|min)\s*\( at the current position; `pnw`
    records whether the previous character was absent or a non-word character
    (the \b condition, since the next pattern character is a word character). -/
def maxMinAt (pnw : Bool) (s : Str) : Bool :=
  pnw &&
    (match s with
     | 'm' :: 'a' :: 'x' :: rest => matchParen rest
     | 'm' :: 'i' :: 'n' :: rest => matchParen rest
     | _ => false)

def maxMinGo : Bool → Str → Bool
  | _, [] => false
  | pnw, c :: rest => maxMinAt pnw (c :: rest) || maxMinGo (!isWordChar c) rest

/-- re.search(r'\b(max|min)\s*\(', line) viewed as a Boolean test. -/
def maxMinSearch (line : Str) : Bool := maxMinGo true line

/-- One attempted match of (\w+)\.Current\.Value at the current position:
    the maximal word run, when followed by the literal .Current.Value. -/
def currentValueAt (s : Str) : Option Str :=
  match s.takeWhile isWordChar with
  | [] => none
  | d :: ds =>
    if (".Current.Value".toList).isPrefixOf (s.drop (d :: ds).length) then
      some (d :: ds)
    else none

/-- re.search(r'(\w+)\.Current\.Value', line): the leftmost match's capture. -/
def currentValueSearch : Str → Option Str
  | [] => none
  | c :: rest =>
    match currentValueAt (c :: rest) with
    | some r => some r
    | none => currentValueSearch rest

/-- One attempted match of (>|<|>=|<=|==|!=) at the current position. -/
def comparisonAt : Str → Bool
  | '>' :: _ => true
  | '<' :: _ => true
  | '=' :: '=' :: _ => true
  | '!' :: '=' :: _ => true
  | _ => false

/-- re.search(r'(>|<|>=|<=|==|!=)', line) viewed as a Boolean test. -/
def comparisonSearch : Str → Bool
  | [] => false
  | c :: rest => comparisonAt (c :: rest) || comparisonSearch rest

theorem get?_some_lt {α : Type} :
    ∀ (l : List α) (n : Nat) (a : α), l.get? n = some a → n < l.length := by
  intro l
  induction l with
  | nil => intro n a h; exact Option.noConfusion h
  | cons x t ih =>
    intro n a h
    cases n with
    | zero => exact Nat.succ_pos _
    | succ m => exact Nat.succ_lt_succ (ih m a h)

/-- The division check's guard pattern:
    'if' in line and ('> 0' in line or '<= 0' in line). -/
def divGuardLine (s : Str) : Bool :=
  substr "if".toList s && (substr "> 0".toList s || substr "<= 0".toList s)

def divisionMessage (d : Str) : Str :=
  "Division by '".toList ++ d ++ "' without zero check".toList

def divisionSuggestion (d : Str) : Str :=
  "Add check: if ".toList ++ d ++ " <= 0: continue".toList

/-- Per-line body of `_check_division_operations`. -/
def divisionLine (lines : List Str) (i : Nat) (line : Str) :
    Option (List ValidationIssue) :=
  if substr "/".toList line && !substr "//".toList line && !isCommentLine line then
    match guardScan lines divGuardLine i 5 with
    | none => none
    | some g =>
      some
        (if !g && (!substr "positionSize".toList line && !substr "Portfolio".toList line) then
          match extractDivisor line with
          | some d => [⟨"warning".toList, i, divisionMessage d, divisionSuggestion d⟩]
          | none => []
        else [])
  else some []

def check_division_operations (lines : List Str) : Option (List ValidationIssue) :=
  runCheck (divisionLine lines) 1 lines

/-- The division check's per-line emission condition, with the guard scan
    replaced by its pure denotation. -/
def divisionCondLine (lines : List Str) (i : Nat) (line : Str) : Bool :=
  (substr "/".toList line && !substr "//".toList line && !isCommentLine line)
    && (!guardFound lines divGuardLine i 5
    && (!substr "positionSize".toList line && !substr "Portfolio".toList line))

/-- Pure denotation of `divisionLine`. -/
def divisionEmitLine (lines : List Str) (i : Nat) (line : Str) : List ValidationIssue :=
  if divisionCondLine lines i line then
    match extractDivisor line with
    | some d => [⟨"warning".toList, i, divisionMessage d, divisionSuggestion d⟩]
    | none => []
  else []

theorem divisionLine_eq (lines : List Str) (i : Nat) (line : Str)
    (hne : lines ≠ []) (hi : i ≤ lines.length) :
    divisionLine lines i line = some (divisionEmitLine lines i line) := by
  unfold divisionLine divisionEmitLine divisionCondLine
  rw [guardScan_eq lines divGuardLine i 5 hne hi]
  cases htr : (substr "/".toList line && !substr "//".toList line && !isCommentLine line) with
  | false => simp
  | true => simp

theorem check_division_eq (lines : List Str) (hne : lines ≠ []) :
    check_division_operations lines =
      some (emitAll (fun k => divisionEmitLine lines k (lineAt lines (k - 1))) 1 lines.length) := by
  unfold check_division_operations
  apply runCheck_eq
  intro t line hget
  have hlt : t < lines.length := get?_some_lt lines t line hget
  have hla : lineAt lines ((1 + t) - 1) = line := by
    unfold lineAt
    rw [show (1 + t) - 1 = t by omega, hget]
    rfl
  rw [hla]
  exact divisionLine_eq lines (1 + t) line hne (by omega)

theorem divisionEmitLine_mem {lines : List Str} {i : Nat} {line : Str}
    {x : ValidationIssue} (h : x ∈ divisionEmitLine lines i line) :
    ∃ d, extractDivisor line = some d ∧
      x = ⟨"warning".toList, i, divisionMessage d, divisionSuggestion d⟩ := by
  unfold divisionEmitLine at h
  by_cases hc : divisionCondLine lines i line = true
  · rw [if_pos hc] at h
    cases hd : extractDivisor line with
    | none => rw [hd] at h; simp at h
    | some d =>
      rw [hd] at h
      have hx : x = ⟨"warning".toList, i, divisionMessage d, divisionSuggestion d⟩ := by
        simpa using h
      exact ⟨d, rfl, hx⟩
  · rw [if_neg hc] at h; simp at h

theorem divisionEmitLine_exists_iff (lines : List Str) (i : Nat) (line : Str) :
    (∃ x, x ∈ divisionEmitLine lines i line) ↔
      (divisionCondLine lines i line = true ∧ (extractDivisor line).isSome = true) := by
  unfold divisionEmitLine
  by_cases hc : divisionCondLine lines i line = true
  · rw [if_pos hc]
    cases hd : extractDivisor line with
    | none => simp [hc]
    | some d => simp [hc]
  · rw [if_neg hc]
    constructor
    · rintro ⟨x, hx⟩; simp at hx
    · rintro ⟨h1, _⟩; exact absurd h1 hc

/-- The None-check guard pattern: 'is None' in line or 'is not None' in line. -/
def noneGuardLine (s : Str) : Bool :=
  substr "is None".toList s || substr "is not None".toList s

def maxMinMessage : Str := "max/min operation on potentially None value".toList

def maxMinSuggestion : Str := "Add None check before max/min operation".toList

/-- Per-line body of `_check_max_min_operations`. -/
def maxMinLine (lines : List Str) (i : Nat) (line : Str) :
    Option (List ValidationIssue) :=
  if maxMinSearch line then
    if substr "indicators[".toList line || substr "self.".toList line then
      match guardScan lines noneGuardLine i 5 with
      | none => none
      | some g =>
        some (if !g then [⟨"error".toList, i, maxMinMessage, maxMinSuggestion⟩] else [])
    else some []
  else some []

def check_max_min_operations (lines : List Str) : Option (List ValidationIssue) :=
  runCheck (maxMinLine lines) 1 lines

/-- The max/min check's per-line emission condition. -/
def maxMinCondLine (lines : List Str) (i : Nat) (line : Str) : Bool :=
  (maxMinSearch line && (substr "indicators[".toList line || substr "self.".toList line))
    && !guardFound lines noneGuardLine i 5

/-- Pure denotation of `maxMinLine`. -/
def maxMinEmitLine (lines : List Str) (i : Nat) (line : Str) : List ValidationIssue :=
  if maxMinCondLine lines i line then
    [⟨"error".toList, i, maxMinMessage, maxMinSuggestion⟩]
  else []

theorem maxMinLine_eq (lines : List Str) (i : Nat) (line : Str)
    (hne : lines ≠ []) (hi : i ≤ lines.length) :
    maxMinLine lines i line = some (maxMinEmitLine lines i line) := by
  unfold maxMinLine maxMinEmitLine maxMinCondLine
  rw [guardScan_eq lines noneGuardLine i 5 hne hi]
  cases h1 : maxMinSearch line with
  | false => simp
  | true =>
    cases h2 : (substr "indicators[".toList line || substr "self.".toList line) with
    | false => simp
    | true => simp

theorem check_max_min_eq (lines : List Str) (hne : lines ≠ []) :
    check_max_min_operations lines =
      some (emitAll (fun k => maxMinEmitLine lines k (lineAt lines (k - 1))) 1 lines.length) := by
  unfold check_max_min_operations
  apply runCheck_eq
  intro t line hget
  have hlt : t < lines.length := get?_some_lt lines t line hget
  have hla : lineAt lines ((1 + t) - 1) = line := by
    unfold lineAt
    rw [show (1 + t) - 1 = t by omega, hget]
    rfl
  rw [hla]
  exact maxMinLine_eq lines (1 + t) line hne (by omega)

theorem maxMinEmitLine_mem {lines : List Str} {i : Nat} {line : Str}
    {x : ValidationIssue} (h : x ∈ maxMinEmitLine lines i line) :
    x = ⟨"error".toList, i, maxMinMessage, maxMinSuggestion⟩ := by
  unfold maxMinEmitLine at h
  by_cases hc : maxMinCondLine lines i line = true
  · rw [if_pos hc] at h; simpa using h
  · rw [if_neg hc] at h; simp at h

theorem maxMinEmitLine_exists_iff (lines : List Str) (i : Nat) (line : Str) :
    (∃ x, x ∈ maxMinEmitLine lines i line) ↔ maxMinCondLine lines i line = true := by
  unfold maxMinEmitLine
  by_cases hc : maxMinCondLine lines i line = true
  · rw [if_pos hc]; simp [hc]
  · rw [if_neg hc]
    constructor
    · rintro ⟨x, hx⟩; simp at hx
    · intro h1; exact absurd h1 hc

/-- The literal ".IsReady" suffix scanned for by the indicator check. -/
def isReadyStr : Str := ".IsReady".toList

def indicatorMessage : Str := "Indicator value used without IsReady check".toList

def indicatorSuggestion : Str := "Add: if not indicator.IsReady: continue".toList

/-- Per-line body of `_check_indicator_usage`. When the capturing search fails
    (impossible once the trigger search succeeded, since the patterns agree),
    the source leaves has_ready_check False and emits. -/
def indicatorLine (lines : List Str) (i : Nat) (line : Str) :
    Option (List ValidationIssue) :=
  if (currentValueSearch line).isSome && !isCommentLine line then
    match currentValueSearch line with
    | some name =>
      match guardScan lines (fun s => substr (name ++ isReadyStr) s) i 10 with
      | none => none
      | some g =>
        some (if !g then [⟨"error".toList, i, indicatorMessage, indicatorSuggestion⟩] else [])
    | none => some [⟨"error".toList, i, indicatorMessage, indicatorSuggestion⟩]
  else some []

def check_indicator_usage (lines : List Str) : Option (List ValidationIssue) :=
  runCheck (indicatorLine lines) 1 lines

/-- The indicator check's per-line emission condition. -/
def indicatorCondLine (lines : List Str) (i : Nat) (line : Str) : Bool :=
  match currentValueSearch line with
  | some name =>
    !isCommentLine line
      && !guardFound lines (fun s => substr (name ++ isReadyStr) s) i 10
  | none => false

/-- Pure denotation of `indicatorLine`. -/
def indicatorEmitLine (lines : List Str) (i : Nat) (line : Str) : List ValidationIssue :=
  if indicatorCondLine lines i line then
    [⟨"error".toList, i, indicatorMessage, indicatorSuggestion⟩]
  else []

theorem indicatorLine_eq (lines : List Str) (i : Nat) (line : Str)
    (hne : lines ≠ []) (hi : i ≤ lines.length) :
    indicatorLine lines i line = some (indicatorEmitLine lines i line) := by
  unfold indicatorLine indicatorEmitLine indicatorCondLine
  cases hn : currentValueSearch line with
  | none => simp
  | some name =>
    have hgeq := guardScan_eq lines (fun s => substr (name ++ isReadyStr) s) i 10 hne hi
    cases hc : isCommentLine line with
    | true => simp [hc]
    | false =>
      cases hg : guardFound lines (fun s => substr (name ++ isReadyStr) s) i 10 with
      | false => simp [hgeq, hc, hg]
      | true => simp [hgeq, hc, hg]

theorem check_indicator_eq (lines : List Str) (hne : lines ≠ []) :
    check_indicator_usage lines =
      some (emitAll (fun k => indicatorEmitLine lines k (lineAt lines (k - 1))) 1 lines.length) := by
  unfold check_indicator_usage
  apply runCheck_eq
  intro t line hget
  have hlt : t < lines.length := get?_some_lt lines t line hget
  have hla : lineAt lines ((1 + t) - 1) = line := by
    unfold lineAt
    rw [show (1 + t) - 1 = t by omega, hget]
    rfl
  rw [hla]
  exact indicatorLine_eq lines (1 + t) line hne (by omega)

theorem indicatorEmitLine_mem {lines : List Str} {i : Nat} {line : Str}
    {x : ValidationIssue} (h : x ∈ indicatorEmitLine lines i line) :
    x = ⟨"error".toList, i, indicatorMessage, indicatorSuggestion⟩ := by
  unfold indicatorEmitLine at h
  by_cases hc : indicatorCondLine lines i line = true
  · rw [if_pos hc] at h; simpa using h
  · rw [if_neg hc] at h; simp at h

theorem indicatorEmitLine_exists_iff (lines : List Str) (i : Nat) (line : Str) :
    (∃ x, x ∈ indicatorEmitLine lines i line) ↔ indicatorCondLine lines i line = true := by
  unfold indicatorEmitLine
  by_cases hc : indicatorCondLine lines i line = true
  · rw [if_pos hc]; simp [hc]
  · rw [if_neg hc]
    constructor
    · rintro ⟨x, hx⟩; simp at hx
    · intro h1; exact absurd h1 hc

def noneCompMessage : Str := "Comparison with potentially None value".toList

def noneCompSuggestion : Str := "Add None check before comparison".toList

/-- Per-line body of `_check_none_comparisons`; the emission test reproduces
    the source's operator grouping (not has_guard and high) or low. -/
def noneComparisonLine (lines : List Str) (i : Nat) (line : Str) :
    Option (List ValidationIssue) :=
  if comparisonSearch line && (substr "indicators[".toList line || substr "self.".toList line) then
    if !substr "is None".toList line && !substr "is not None".toList line then
      match guardScan lines noneGuardLine i 5 with
      | none => none
      | some g =>
        some
          (if (!g && substr "indicators[\"high\"]".toList line)
              || substr "indicators[\"low\"]".toList line then
            [⟨"error".toList, i, noneCompMessage, noneCompSuggestion⟩]
          else [])
    else some []
  else some []

def check_none_comparisons (lines : List Str) : Option (List ValidationIssue) :=
  runCheck (noneComparisonLine lines) 1 lines

/-- The None-comparison check's trigger: a comparison operator, a reference to
    indicators[ or self., and no is None / is not None on the line itself. -/
def noneComparisonTrigger (line : Str) : Bool :=
  (comparisonSearch line && (substr "indicators[".toList line || substr "self.".toList line))
    && (!substr "is None".toList line && !substr "is not None".toList line)

/-- The None-comparison check's per-line emission condition. -/
def noneComparisonCondLine (lines : List Str) (i : Nat) (line : Str) : Bool :=
  noneComparisonTrigger line
    && ((!guardFound lines noneGuardLine i 5 && substr "indicators[\"high\"]".toList line)
        || substr "indicators[\"low\"]".toList line)

/-- Pure denotation of `noneComparisonLine`. -/
def noneComparisonEmitLine (lines : List Str) (i : Nat) (line : Str) : List ValidationIssue :=
  if noneComparisonCondLine lines i line then
    [⟨"error".toList, i, noneCompMessage, noneCompSuggestion⟩]
  else []

theorem noneComparisonLine_eq (lines : List Str) (i : Nat) (line : Str)
    (hne : lines ≠ []) (hi : i ≤ lines.length) :
    noneComparisonLine lines i line = some (noneComparisonEmitLine lines i line) := by
  unfold noneComparisonLine noneComparisonEmitLine noneComparisonCondLine noneComparisonTrigger
  rw [guardScan_eq lines noneGuardLine i 5 hne hi]
  cases h1 : (comparisonSearch line && (substr "indicators[".toList line || substr "self.".toList line)) with
  | false => simp
  | true =>
    cases h2 : (!substr "is None".toList line && !substr "is not None".toList line) with
    | false => simp [h2]
    | true => simp [h2]

theorem check_none_comparisons_eq (lines : List Str) (hne : lines ≠ []) :
    check_none_comparisons lines =
      some (emitAll (fun k => noneComparisonEmitLine lines k (lineAt lines (k - 1))) 1 lines.length) := by
  unfold check_none_comparisons
  apply runCheck_eq
  intro t line hget
  have hlt : t < lines.length := get?_some_lt lines t line hget
  have hla : lineAt lines ((1 + t) - 1) = line := by
    unfold lineAt
    rw [show (1 + t) - 1 = t by omega, hget]
    rfl
  rw [hla]
  exact noneComparisonLine_eq lines (1 + t) line hne (by omega)

theorem noneComparisonEmitLine_mem {lines : List Str} {i : Nat} {line : Str}
    {x : ValidationIssue} (h : x ∈ noneComparisonEmitLine lines i line) :
    x = ⟨"error".toList, i, noneCompMessage, noneCompSuggestion⟩ := by
  unfold noneComparisonEmitLine at h
  by_cases hc : noneComparisonCondLine lines i line = true
  · rw [if_pos hc] at h; simpa using h
  · rw [if_neg hc] at h; simp at h

theorem noneComparisonEmitLine_exists_iff (lines : List Str) (i : Nat) (line : Str) :
    (∃ x, x ∈ noneComparisonEmitLine lines i line) ↔
      noneComparisonCondLine lines i line = true := by
  unfold noneComparisonEmitLine
  by_cases hc : noneComparisonCondLine lines i line = true
  · rw [if_pos hc]; simp [hc]
  · rw [if_neg hc]
    constructor
    · rintro ⟨x, hx⟩; simp at hx
    · intro h1; exact absurd h1 hc

/-- Per-line body of `_check_portfolio_access`: recognizes the pattern but
    intentionally records nothing. -/
def portfolioLine (_lines : List Str) (_i : Nat) (line : Str) :
    Option (List ValidationIssue) :=
  if substr "self.Portfolio[".toList line && !substr "Invested".toList line then some []
  else some []

def check_portfolio_access (lines : List Str) : Option (List ValidationIssue) :=
  runCheck (portfolioLine lines) 1 lines

theorem check_portfolio_eq (lines : List Str) :
    check_portfolio_access lines = some [] := by
  unfold check_portfolio_access
  rw [runCheck_eq (portfolioLine lines) (fun _ => []) lines 1 ?_, emitAll_nil]
  intro t line _
  unfold portfolioLine
  split <;> rfl

/-- `QuantConnectValidator.validate`: split into lines, run the five checks in
    order, return the accumulated issues; `none` models a raised exception. -/
def validate (code : Str) : Option (List ValidationIssue) :=
  match check_division_operations (splitLines code) with
  | none => none
  | some a =>
    match check_max_min_operations (splitLines code) with
    | none => none
    | some b =>
      match check_indicator_usage (splitLines code) with
      | none => none
      | some c =>
        match check_none_comparisons (splitLines code) with
        | none => none
        | some d =>
          match check_portfolio_access (splitLines code) with
          | none => none
          | some e => some (a ++ b ++ c ++ d ++ e)

/-- Pure denotation of `validate`: the issues of the four emitting checks in
    check order, each in line order. -/
def validateIssues (code : Str) : List ValidationIssue :=
  emitAll (fun k => divisionEmitLine (splitLines code) k (lineAt (splitLines code) (k - 1)))
      1 (splitLines code).length
    ++ emitAll (fun k => maxMinEmitLine (splitLines code) k (lineAt (splitLines code) (k - 1)))
      1 (splitLines code).length
    ++ emitAll (fun k => indicatorEmitLine (splitLines code) k (lineAt (splitLines code) (k - 1)))
      1 (splitLines code).length
    ++ emitAll (fun k => noneComparisonEmitLine (splitLines code) k (lineAt (splitLines code) (k - 1)))
      1 (splitLines code).length

theorem validate_eq (code : Str) : validate code = some (validateIssues code) := by
  have hne := splitLines_ne_nil code
  unfold validate validateIssues
  rw [check_division_eq _ hne, check_max_min_eq _ hne, check_indicator_eq _ hne,
    check_none_comparisons_eq _ hne, check_portfolio_eq]
  simp

/-- The validator object: its only data field is the issue list
    (`self.issues`); the logger has no observable effect on results. -/
structure QuantConnectValidator where
  issues : List ValidationIssue
deriving DecidableEq

/-- `__init__`: a fresh validator starts with an empty issue list. -/
def QuantConnectValidator.new : QuantConnectValidator := ⟨[]⟩

/-- The `validate` method: resets `self.issues`, runs the checks, stores and
    returns the result. The total interface is justified by the no-throw
    theorem (`validate` never returns `none`). -/
def QuantConnectValidator.runValidate (v : QuantConnectValidator) (code : Str) :
    QuantConnectValidator × List ValidationIssue :=
  match validate code with
  | some r => (⟨r⟩, r)
  | none => (v, [])

/-- `has_errors`: any issue with severity 'error'. -/
def QuantConnectValidator.has_errors (v : QuantConnectValidator) : Bool :=
  v.issues.any fun x => decide (x.severity = "error".toList)

/-- `has_warnings`: any issue with severity 'warning'. -/
def QuantConnectValidator.has_warnings (v : QuantConnectValidator) : Bool :=
  v.issues.any fun x => decide (x.severity = "warning".toList)

/-- `get_error_count`: the number of issues with severity 'error'. -/
def QuantConnectValidator.get_error_count (v : QuantConnectValidator) : Nat :=
  v.issues.countP fun x => decide (x.severity = "error".toList)

/-- `get_warning_count`: the number of issues with severity 'warning'. -/
def QuantConnectValidator.get_warning_count (v : QuantConnectValidator) : Nat :=
  v.issues.countP fun x => decide (x.severity = "warning".toList)

/-- The fixed message returned when no issues were found. -/
def noIssuesMessage : Str := "✅ No validation issues found".toList

/-- Decimal rendering of a number, for the report's interpolations. -/
def natToStr (n : Nat) : Str := (Nat.repr n).toList

/-- One issue's two report lines: Line {line}: {message} and → {suggestion}. -/
def reportLineBlock (x : ValidationIssue) : Str :=
  "  Line ".toList ++ natToStr x.line ++ ": ".toList ++ x.message ++ "\n".toList
    ++ "    → ".toList ++ x.suggestion ++ "\n\n".toList

def reportBody : List ValidationIssue → Str
  | [] => []
  | x :: rest => reportLineBlock x ++ reportBody rest

/-- `format_report`: the fixed no-issues message on an empty issue list,
    otherwise a count header, an ERRORS section and a WARNINGS section. -/
def QuantConnectValidator.format_report (v : QuantConnectValidator) : Str :=
  if v.issues = [] then noIssuesMessage
  else
    "Found ".toList ++ natToStr v.issues.length ++ " validation issues:\n\n".toList
      ++ (if v.issues.filter (fun x => decide (x.severity = "error".toList)) = [] then []
          else "ERRORS:\n".toList
            ++ reportBody (v.issues.filter fun x => decide (x.severity = "error".toList)))
      ++ (if v.issues.filter (fun x => decide (x.severity = "warning".toList)) = [] then []
          else "WARNINGS:\n".toList
            ++ reportBody (v.issues.filter fun x => decide (x.severity = "warning".toList)))

/-- The report's shape as the claim states it: a function of the total count
    and the two severity-filtered sublists only. -/
def reportFromParts (total : Nat) (errors warnings : List ValidationIssue) : Str :=
  "Found ".toList ++ natToStr total ++ " validation issues:\n\n".toList
    ++ (if errors = [] then [] else "ERRORS:\n".toList ++ reportBody errors)
    ++ (if warnings = [] then [] else "WARNINGS:\n".toList ++ reportBody warnings)

theorem format_report_eq (issues : List ValidationIssue) :
    QuantConnectValidator.format_report ⟨issues⟩ =
      (if issues = [] then noIssuesMessage
       else reportFromParts issues.length
         (issues.filter fun x => decide (x.severity = "error".toList))
         (issues.filter fun x => decide (x.severity = "warning".toList))) := by
  by_cases h : issues = []
  · simp [QuantConnectValidator.format_report, h]
  · simp [QuantConnectValidator.format_report, reportFromParts, h]

theorem reportFromParts_head (total : Nat) (errors warnings : List ValidationIssue) :
    (reportFromParts total errors warnings).head? = some 'F' := rfl

theorem reportFromParts_ne_noIssues (total : Nat)
    (errors warnings : List ValidationIssue) :
    reportFromParts total errors warnings ≠ noIssuesMessage := by
  intro h
  have h1 : (reportFromParts total errors warnings).head? = some 'F' :=
    reportFromParts_head total errors warnings
  rw [h] at h1
  exact absurd h1 (by decide)

/-- Modelled from the claims' literal wording of the lookback: a scan of only
    the win lines strictly above 1-based line i, for comparison with the
    source's scan. -/
def specAboveGuard (lines : List Str) (p : Str → Bool) (i win : Nat) : Bool :=
  (List.range win).any fun t => decide (1 ≤ i - 1 - t) && p (lineAt lines (i - 2 - t))

/-- Modelled from claim C1's wording: the division check's emission condition
    with the lookback read as the 5 lines strictly above line i. -/
def specDivCondition (lines : List Str) (i : Nat) : Bool :=
  (substr "/".toList (lineAt lines (i - 1)) && !substr "//".toList (lineAt lines (i - 1))
      && !isCommentLine (lineAt lines (i - 1)))
    && (!specAboveGuard lines divGuardLine i 5
    && (!substr "positionSize".toList (lineAt lines (i - 1))
        && !substr "Portfolio".toList (lineAt lines (i - 1))))
    && (extractDivisor (lineAt lines (i - 1))).isSome

/-- A division on line 1 with a numeric guard on the final line. -/
def divWrapInput : Str := "x = a / b\nif c > 0:".toList

/-- C1 counterexample: on divWrapInput the claim's condition holds at line 1
    (there are no lines above it), yet the check emits nothing: its lookback
    at j = 0 reads Python lines[-1], the final line, which holds a guard. -/
theorem c1_claim_counterexample :
    ∃ r, check_division_operations (splitLines divWrapInput) = some r ∧
      ¬ ((∃ x, x ∈ r ∧ x.line = 1) ↔
          specDivCondition (splitLines divWrapInput) 1 = true) := by
  refine ⟨[], by decide, ?_⟩
  intro h
  obtain ⟨x, hx, _⟩ := h.mpr (by decide)
  cases hx

/-- The division check's emission condition at line i of the split input. -/
def divisionCondition (lines : List Str) (i : Nat) : Bool :=
  divisionCondLine lines i (lineAt lines (i - 1))
    && (extractDivisor (lineAt lines (i - 1))).isSome

/-- C1 (amended): the division check emits a finding for 1-based line i iff
    line i contains a '/', contains no '//', is not a comment, no scanned
    lookback line contains 'if' together with '> 0' or '<= 0' — the scanned
    lines being Python lines[j-1] for j from max(0, i-5) to i-1, i.e. physical
    line j for j ≥ 1 and the input's last line for j = 0 — line i contains
    neither 'positionSize' nor 'Portfolio', and a divisor token is extractable;
    the finding is a warning on line i naming that divisor, with a suggestion
    containing if <divisor> <= 0: continue. -/
theorem c1_division_emission (code : Str) (i : Nat) :
    ∃ r, check_division_operations (splitLines code) = some r ∧
      ((∃ x, x ∈ r ∧ x.line = i) ↔
        (1 ≤ i ∧ i ≤ (splitLines code).length ∧
          divisionCondition (splitLines code) i = true)) ∧
      (∀ x, x ∈ r → x.line = i →
        ∃ d, extractDivisor (lineAt (splitLines code) (i - 1)) = some d ∧
          x = ⟨"warning".toList, i, divisionMessage d, divisionSuggestion d⟩ ∧
          substr ("if ".toList ++ d ++ " <= 0: continue".toList) x.suggestion = true) ∧
      (guardFound (splitLines code) divGuardLine i 5 = true ↔
        ∃ j, j < i ∧ i - 5 ≤ j ∧
          divGuardLine (lookbackLine (splitLines code) j) = true) := by
  have hne := splitLines_ne_nil code
  refine ⟨_, check_division_eq (splitLines code) hne, ?_, ?_, guardFound_iff _ _ _ _⟩
  · rw [emitAll_line_mem_iff _ _ i (fun k x hx => by
      obtain ⟨d, _, rfl⟩ := divisionEmitLine_mem hx; rfl)]
    rw [divisionEmitLine_exists_iff]
    unfold divisionCondition
    simp [Bool.and_eq_true]
  · intro x hx hline
    obtain ⟨k, hk1, hk2, hm⟩ := (mem_emitAll _ _ _ _).mp hx
    obtain ⟨d, hd, rfl⟩ := divisionEmitLine_mem hm
    have hk : k = i := hline
    subst hk
    refine ⟨d, hd, rfl, ?_⟩
    show substr ("if ".toList ++ d ++ " <= 0: continue".toList)
        ("Add check: if ".toList ++ d ++ " <= 0: continue".toList) = true
    have key : ("Add check: if ".toList ++ d ++ " <= 0: continue".toList : Str)
        = "Add check: ".toList ++ ("if ".toList ++ d ++ " <= 0: continue".toList) := by
      rw [show ("Add check: if ".toList : Str) = "Add check: ".toList ++ "if ".toList
        from by decide]
      simp [List.append_assoc]
    rw [key]
    exact substr_append_left _ _

/-- Witness for C1 at the unguarded single-line division 'result = total / count'. -/
theorem c1_division_emission_witness :
    ∃ r, check_division_operations (splitLines "result = total / count".toList) = some r ∧
      ((∃ x, x ∈ r ∧ x.line = 1) ↔
        (1 ≤ 1 ∧ 1 ≤ (splitLines "result = total / count".toList).length ∧
          divisionCondition (splitLines "result = total / count".toList) 1 = true)) ∧
      (∀ x, x ∈ r → x.line = 1 →
        ∃ d, extractDivisor (lineAt (splitLines "result = total / count".toList) (1 - 1)) = some d ∧
          x = ⟨"warning".toList, 1, divisionMessage d, divisionSuggestion d⟩ ∧
          substr ("if ".toList ++ d ++ " <= 0: continue".toList) x.suggestion = true) ∧
      (guardFound (splitLines "result = total / count".toList) divGuardLine 1 5 = true ↔
        ∃ j, j < 1 ∧ 1 - 5 ≤ j ∧
          divGuardLine (lookbackLine (splitLines "result = total / count".toList) j) = true) :=
  c1_division_emission "result = total / count".toList 1

/-- Modelled from claim C4's wording: the indicator check's emission condition
    with the lookback read as the 10 lines strictly above line i. -/
def specIndCondition (lines : List Str) (i : Nat) : Bool :=
  match currentValueSearch (lineAt lines (i - 1)) with
  | some name =>
    !isCommentLine (lineAt lines (i - 1))
      && !specAboveGuard lines (fun s => substr (name ++ isReadyStr) s) i 10
  | none => false

/-- An indicator access on line 1 with the IsReady mention on the final line. -/
def indWrapInput : Str := "x = a.Current.Value\nfoo = a.IsReady".toList

/-- C4 counterexample: on indWrapInput the claim's condition holds at line 1
    (no lines above hold a.IsReady), yet the check emits nothing: its lookback
    at j = 0 reads Python lines[-1], the final line, which holds a.IsReady. -/
theorem c4_claim_counterexample :
    ∃ r, check_indicator_usage (splitLines indWrapInput) = some r ∧
      ¬ ((∃ x, x ∈ r ∧ x.line = 1) ↔
          specIndCondition (splitLines indWrapInput) 1 = true) := by
  refine ⟨[], by decide, ?_⟩
  intro h
  obtain ⟨x, hx, _⟩ := h.mpr (by decide)
  cases hx

/-- The indicator check's emission condition at line i of the split input. -/
def indicatorCondition (lines : List Str) (i : Nat) : Bool :=
  indicatorCondLine lines i (lineAt lines (i - 1))

/-- C4 (amended): the indicator-readiness check emits an error finding for
    1-based line i iff line i matches <identifier>.Current.Value, is not a
    comment, and the literal <identifier>.IsReady — with the identifier from
    line i's first match — occurs in none of the scanned lookback lines,
    which are Python lines[j-1] for j from max(0, i-10) to i-1, i.e. physical
    line j for j ≥ 1 and the input's last line for j = 0; the finding's
    suggestion advises if not indicator.IsReady: continue. -/
theorem c4_indicator_emission (code : Str) (i : Nat) :
    ∃ r, check_indicator_usage (splitLines code) = some r ∧
      ((∃ x, x ∈ r ∧ x.line = i) ↔
        (1 ≤ i ∧ i ≤ (splitLines code).length ∧
          indicatorCondition (splitLines code) i = true)) ∧
      (∀ x, x ∈ r →
        x = ⟨"error".toList, x.line, indicatorMessage, indicatorSuggestion⟩ ∧
        substr "if not indicator.IsReady: continue".toList x.suggestion = true) ∧
      (∀ name : Str,
        guardFound (splitLines code) (fun s => substr (name ++ isReadyStr) s) i 10 = true ↔
        ∃ j, j < i ∧ i - 10 ≤ j ∧
          substr (name ++ isReadyStr) (lookbackLine (splitLines code) j) = true) := by
  have hne := splitLines_ne_nil code
  refine ⟨_, check_indicator_eq (splitLines code) hne, ?_, ?_,
    fun name => guardFound_iff _ _ _ _⟩
  · rw [emitAll_line_mem_iff _ _ i (fun k x hx => by
      rw [indicatorEmitLine_mem hx])]
    rw [indicatorEmitLine_exists_iff]
    unfold indicatorCondition
    rfl
  · intro x hx
    obtain ⟨k, hk1, hk2, hm⟩ := (mem_emitAll _ _ _ _).mp hx
    rw [indicatorEmitLine_mem hm]
    refine ⟨rfl, ?_⟩
    show substr "if not indicator.IsReady: continue".toList indicatorSuggestion = true
    decide

/-- Witness for C4 at the unguarded indicator access 'x = self.rsi.Current.Value'. -/
theorem c4_indicator_emission_witness :
    ∃ r, check_indicator_usage (splitLines "x = self.rsi.Current.Value".toList) = some r ∧
      ((∃ x, x ∈ r ∧ x.line = 1) ↔
        (1 ≤ 1 ∧ 1 ≤ (splitLines "x = self.rsi.Current.Value".toList).length ∧
          indicatorCondition (splitLines "x = self.rsi.Current.Value".toList) 1 = true)) ∧
      (∀ x, x ∈ r →
        x = ⟨"error".toList, x.line, indicatorMessage, indicatorSuggestion⟩ ∧
        substr "if not indicator.IsReady: continue".toList x.suggestion = true) ∧
      (∀ name : Str,
        guardFound (splitLines "x = self.rsi.Current.Value".toList)
            (fun s => substr (name ++ isReadyStr) s) 1 10 = true ↔
        ∃ j, j < 1 ∧ 1 - 10 ≤ j ∧
          substr (name ++ isReadyStr)
            (lookbackLine (splitLines "x = self.rsi.Current.Value".toList) j) = true) :=
  c4_indicator_emission "x = self.rsi.Current.Value".toList 1

/-- Modelled from claim C5's wording: the max/min check's emission condition
    with the lookback read as the 5 lines strictly above line i. -/
def specMaxMinCondition (lines : List Str) (i : Nat) : Bool :=
  (maxMinSearch (lineAt lines (i - 1))
      && (substr "indicators[".toList (lineAt lines (i - 1))
          || substr "self.".toList (lineAt lines (i - 1))))
    && !specAboveGuard lines noneGuardLine i 5

/-- A max/min access on line 1 with a None guard on the final line. -/
def maxMinWrapInput : Str := "val = max(indicators['high'], 0)\nx is None".toList

/-- C5 counterexample: on maxMinWrapInput the claim's condition holds at line 1
    (no lines above hold a None check), yet the check emits nothing: its
    lookback at j = 0 reads Python lines[-1], the final line, which holds one. -/
theorem c5_claim_counterexample :
    ∃ r, check_max_min_operations (splitLines maxMinWrapInput) = some r ∧
      ¬ ((∃ x, x ∈ r ∧ x.line = 1) ↔
          specMaxMinCondition (splitLines maxMinWrapInput) 1 = true) := by
  refine ⟨[], by decide, ?_⟩
  intro h
  obtain ⟨x, hx, _⟩ := h.mpr (by decide)
  cases hx

/-- The max/min check's emission condition at line i of the split input. -/
def maxMinCondition (lines : List Str) (i : Nat) : Bool :=
  maxMinCondLine lines i (lineAt lines (i - 1))

/-- C5 (amended): the max/min check emits an error finding for 1-based line i
    iff line i contains a word-boundary max( or min( call and contains
    'indicators[' or 'self.', and no scanned lookback line contains 'is None'
    or 'is not None' — the scanned lines being Python lines[j-1] for j from
    max(0, i-5) to i-1, i.e. physical line j for j ≥ 1 and the input's last
    line for j = 0; in particular the single-line input
    val = max(indicators['high'], 0) yields exactly one such error on line 1. -/
theorem c5_max_min_emission (code : Str) (i : Nat) :
    ∃ r, check_max_min_operations (splitLines code) = some r ∧
      ((∃ x, x ∈ r ∧ x.line = i) ↔
        (1 ≤ i ∧ i ≤ (splitLines code).length ∧
          maxMinCondition (splitLines code) i = true)) ∧
      (∀ x, x ∈ r → x = ⟨"error".toList, x.line, maxMinMessage, maxMinSuggestion⟩) ∧
      (guardFound (splitLines code) noneGuardLine i 5 = true ↔
        ∃ j, j < i ∧ i - 5 ≤ j ∧
          noneGuardLine (lookbackLine (splitLines code) j) = true) ∧
      validate "val = max(indicators['high'], 0)".toList =
        some [⟨"error".toList, 1, maxMinMessage, maxMinSuggestion⟩] := by
  have hne := splitLines_ne_nil code
  refine ⟨_, check_max_min_eq (splitLines code) hne, ?_, ?_, guardFound_iff _ _ _ _,
    by decide⟩
  · rw [emitAll_line_mem_iff _ _ i (fun k x hx => by
      rw [maxMinEmitLine_mem hx])]
    rw [maxMinEmitLine_exists_iff]
    unfold maxMinCondition
    rfl
  · intro x hx
    obtain ⟨k, hk1, hk2, hm⟩ := (mem_emitAll _ _ _ _).mp hx
    rw [maxMinEmitLine_mem hm]

/-- Witness for C5 at the None-risky single-line max call. -/
theorem c5_max_min_emission_witness :
    ∃ r, check_max_min_operations
        (splitLines "val = max(indicators['high'], 0)".toList) = some r ∧
      ((∃ x, x ∈ r ∧ x.line = 1) ↔
        (1 ≤ 1 ∧ 1 ≤ (splitLines "val = max(indicators['high'], 0)".toList).length ∧
          maxMinCondition (splitLines "val = max(indicators['high'], 0)".toList) 1 = true)) ∧
      (∀ x, x ∈ r → x = ⟨"error".toList, x.line, maxMinMessage, maxMinSuggestion⟩) ∧
      (guardFound (splitLines "val = max(indicators['high'], 0)".toList) noneGuardLine 1 5 = true ↔
        ∃ j, j < 1 ∧ 1 - 5 ≤ j ∧
          noneGuardLine
            (lookbackLine (splitLines "val = max(indicators['high'], 0)".toList) j) = true) ∧
      validate "val = max(indicators['high'], 0)".toList =
        some [⟨"error".toList, 1, maxMinMessage, maxMinSuggestion⟩] :=
  c5_max_min_emission "val = max(indicators['high'], 0)".toList 1

/-- C2: validate returns a (possibly empty) list of findings for every input
    text and never raises: in the embedding, where every Python indexing
    operation is fallible and every regex miss is an explicit Option, validate
    always returns some list. -/
theorem c2_validate_no_throw (code : Str) : ∃ r, validate code = some r :=
  ⟨validateIssues code, validate_eq code⟩

/-- C3: on every line satisfying the None-comparison check's trigger, an error
    finding is emitted iff (the check's own 5-line lookback scan found no
    guard AND the line contains indicators["high"]) OR the line contains
    indicators["low"]; in particular the low literal emits even under a guard. -/
theorem c3_none_comparison_emission (code : Str) (i : Nat)
    (h1 : 1 ≤ i) (h2 : i ≤ (splitLines code).length)
    (htrig : noneComparisonTrigger (lineAt (splitLines code) (i - 1)) = true) :
    ∃ r, check_none_comparisons (splitLines code) = some r ∧
      ((∃ x, x ∈ r ∧ x.line = i) ↔
        ((guardScan (splitLines code) noneGuardLine i 5 = some false ∧
          substr "indicators[\"high\"]".toList (lineAt (splitLines code) (i - 1)) = true) ∨
         substr "indicators[\"low\"]".toList (lineAt (splitLines code) (i - 1)) = true)) ∧
      (∀ x, x ∈ r → x.severity = "error".toList) := by
  have hne := splitLines_ne_nil code
  refine ⟨_, check_none_comparisons_eq (splitLines code) hne, ?_, ?_⟩
  · rw [emitAll_line_mem_iff _ _ i (fun k x hx => by
      rw [noneComparisonEmitLine_mem hx])]
    rw [noneComparisonEmitLine_exists_iff]
    unfold noneComparisonCondLine
    rw [htrig, Bool.true_and,
      guardScan_eq (splitLines code) noneGuardLine i 5 hne h2]
    simp only [Option.some.injEq, Bool.or_eq_true, Bool.and_eq_true,
      Bool.not_eq_true']
    constructor
    · rintro h
      exact h.2.2
    · intro h
      exact ⟨h1, h2, h⟩
  · intro x hx
    obtain ⟨k, hk1, hk2, hm⟩ := (mem_emitAll _ _ _ _).mp hx
    rw [noneComparisonEmitLine_mem hm]

/-- Witness for C3: a guarded line containing the low literal still emits. -/
theorem c3_none_comparison_emission_witness :
    ∃ r, check_none_comparisons
        (splitLines "y is not None\nindicators[\"low\"] > 0".toList) = some r ∧
      ((∃ x, x ∈ r ∧ x.line = 2) ↔
        ((guardScan (splitLines "y is not None\nindicators[\"low\"] > 0".toList)
            noneGuardLine 2 5 = some false ∧
          substr "indicators[\"high\"]".toList
            (lineAt (splitLines "y is not None\nindicators[\"low\"] > 0".toList) (2 - 1)) = true) ∨
         substr "indicators[\"low\"]".toList
           (lineAt (splitLines "y is not None\nindicators[\"low\"] > 0".toList) (2 - 1)) = true)) ∧
      (∀ x, x ∈ r → x.severity = "error".toList) :=
  c3_none_comparison_emission "y is not None\nindicators[\"low\"] > 0".toList 2
    (by decide) (by decide) (by decide)

/-- C6: every finding returned by validate carries a line number within
    [1, number of physical lines of the input]. -/
theorem c6_line_bounds (code : Str) (r : List ValidationIssue) (x : ValidationIssue)
    (hr : validate code = some r) (hx : x ∈ r) :
    1 ≤ x.line ∧ x.line ≤ (splitLines code).length := by
  rw [validate_eq code] at hr
  have hrr : r = validateIssues code := by
    injection hr with h
    exact h.symm
  subst hrr
  unfold validateIssues at hx
  simp only [List.mem_append] at hx
  rcases hx with ((h | h) | h) | h
  · obtain ⟨k, hk1, hk2, hm⟩ := (mem_emitAll _ _ _ _).mp h
    obtain ⟨d, _, rfl⟩ := divisionEmitLine_mem hm
    exact ⟨by simpa using hk1, by simp; omega⟩
  · obtain ⟨k, hk1, hk2, hm⟩ := (mem_emitAll _ _ _ _).mp h
    rw [maxMinEmitLine_mem hm]
    exact ⟨by simpa using hk1, by simp; omega⟩
  · obtain ⟨k, hk1, hk2, hm⟩ := (mem_emitAll _ _ _ _).mp h
    rw [indicatorEmitLine_mem hm]
    exact ⟨by simpa using hk1, by simp; omega⟩
  · obtain ⟨k, hk1, hk2, hm⟩ := (mem_emitAll _ _ _ _).mp h
    rw [noneComparisonEmitLine_mem hm]
    exact ⟨by simpa using hk1, by simp; omega⟩

/-- Witness for C6 at a concrete unguarded division. -/
theorem c6_line_bounds_witness :
    1 ≤ (ValidationIssue.mk "warning".toList 1 (divisionMessage "count".toList)
          (divisionSuggestion "count".toList)).line ∧
    (ValidationIssue.mk "warning".toList 1 (divisionMessage "count".toList)
          (divisionSuggestion "count".toList)).line
      ≤ (splitLines "result = total / count".toList).length :=
  c6_line_bounds "result = total / count".toList
    [⟨"warning".toList, 1, divisionMessage "count".toList,
      divisionSuggestion "count".toList⟩]
    ⟨"warning".toList, 1, divisionMessage "count".toList,
      divisionSuggestion "count".toList⟩
    (by decide) (by decide)

/-- C7: validate is deterministic and idempotent across repeated calls: the
    issue list is reset at the start of each call and the returned sequence is
    a function of the input text only, so a second serialized call on the same
    validator returns the identical ordered sequence. -/
theorem c7_validate_deterministic (v : QuantConnectValidator) (code : Str) :
    ((v.runValidate code).1.runValidate code).2 = (v.runValidate code).2 ∧
    (∀ w : QuantConnectValidator, (w.runValidate code).2 = (v.runValidate code).2) := by
  unfold QuantConnectValidator.runValidate
  rw [validate_eq code]
  exact ⟨rfl, fun w => rfl⟩

/-- C8: after a run, format_report returns the fixed no-issues message iff the
    run produced no findings; otherwise the report is a count header followed
    by the ERRORS then WARNINGS sections in discovery order, determined only
    by the total count and the severity-filtered sublists, so findings of any
    other severity (e.g. info) never appear in it. -/
theorem c8_format_report (issues : List ValidationIssue) :
    (QuantConnectValidator.format_report ⟨issues⟩ = noIssuesMessage ↔ issues = []) ∧
    QuantConnectValidator.format_report ⟨issues⟩ =
      (if issues = [] then noIssuesMessage
       else reportFromParts issues.length
         (issues.filter fun x => decide (x.severity = "error".toList))
         (issues.filter fun x => decide (x.severity = "warning".toList))) ∧
    (∀ others : List ValidationIssue,
      others.length = issues.length →
      others.filter (fun x => decide (x.severity = "error".toList)) =
        issues.filter (fun x => decide (x.severity = "error".toList)) →
      others.filter (fun x => decide (x.severity = "warning".toList)) =
        issues.filter (fun x => decide (x.severity = "warning".toList)) →
      QuantConnectValidator.format_report ⟨others⟩ =
        QuantConnectValidator.format_report ⟨issues⟩) := by
  refine ⟨⟨?_, ?_⟩, format_report_eq issues, ?_⟩
  · intro h
    by_cases he : issues = []
    · exact he
    · rw [format_report_eq issues, if_neg he] at h
      exact absurd h (reportFromParts_ne_noIssues _ _ _)
  · intro h
    subst h
    rfl
  · intro others hlen herr hwarn
    rw [format_report_eq others, format_report_eq issues, hlen, herr, hwarn]
    by_cases he : issues = []
    · have ho : others = [] := by
        rw [he] at hlen
        simpa using List.length_eq_zero.mp (by simpa using hlen)
      rw [if_pos he, if_pos ho]
    · have ho : others ≠ [] := by
        intro hcon
        rw [hcon] at hlen
        exact he (List.length_eq_zero.mp (by simpa using hlen.symm))
      rw [if_neg he, if_neg ho]

/-- Witness-style instantiation for C8 on a run with a single info finding:
    the report is the bare count header, surfacing neither the finding nor the
    no-issues message. -/
theorem c8_format_report_witness :
    (QuantConnectValidator.format_report ⟨[⟨"info".toList, 3, "m".toList, "s".toList⟩]⟩ =
        noIssuesMessage ↔ ([⟨"info".toList, 3, "m".toList, "s".toList⟩] :
          List ValidationIssue) = []) ∧
    QuantConnectValidator.format_report ⟨[⟨"info".toList, 3, "m".toList, "s".toList⟩]⟩ =
      (if ([⟨"info".toList, 3, "m".toList, "s".toList⟩] : List ValidationIssue) = []
       then noIssuesMessage
       else reportFromParts
         ([⟨"info".toList, 3, "m".toList, "s".toList⟩] : List ValidationIssue).length
         (([⟨"info".toList, 3, "m".toList, "s".toList⟩] : List ValidationIssue).filter
            fun x => decide (x.severity = "error".toList))
         (([⟨"info".toList, 3, "m".toList, "s".toList⟩] : List ValidationIssue).filter
            fun x => decide (x.severity = "warning".toList))) ∧
    (∀ others : List ValidationIssue,
      others.length =
        ([⟨"info".toList, 3, "m".toList, "s".toList⟩] : List ValidationIssue).length →
      others.filter (fun x => decide (x.severity = "error".toList)) =
        ([⟨"info".toList, 3, "m".toList, "s".toList⟩] : List ValidationIssue).filter
          (fun x => decide (x.severity = "error".toList)) →
      others.filter (fun x => decide (x.severity = "warning".toList)) =
        ([⟨"info".toList, 3, "m".toList, "s".toList⟩] : List ValidationIssue).filter
          (fun x => decide (x.severity = "warning".toList)) →
      QuantConnectValidator.format_report ⟨others⟩ =
        QuantConnectValidator.format_report
          ⟨[⟨"info".toList, 3, "m".toList, "s".toList⟩]⟩) :=
  c8_format_report [⟨"info".toList, 3, "m".toList, "s".toList⟩]

/-- C9: in every guard-lookback scan, when the trigger line's 1-based index i
    is at most the window size, the first examined loop index is j = 0, which
    reads Python lines[-1] — the input's last line; a guard pattern on the
    final line therefore suppresses findings on early lines, and on a one-line
    input the trigger line is scanned as its own guard, so the inline
    conditional division example yields no findings at all. -/
theorem c9_lookback_wraparound (lines : List Str) (p : Str → Bool) (i win : Nat)
    (hne : lines ≠ []) (h1 : 1 ≤ i) (h2 : i ≤ win)
    (hp : p (lines.getLast hne) = true) :
    pyGet lines (-1) = some (lines.getLast hne) ∧
    guardScan lines p i win = some true ∧
    validate "result = a / b if b > 0 else 0".toList = some [] := by
  refine ⟨pyGet_neg_one lines hne, ?_, by decide⟩
  unfold guardScan
  rw [show i - win = 0 by omega]
  obtain ⟨m, rfl⟩ := Nat.exists_eq_succ_of_ne_zero (show i ≠ 0 by omega)
  rw [show m + 1 - 0 = m + 1 by omega]
  simp only [scanRange]
  rw [show ((0 : Nat) : Int) - 1 = -1 by decide, pyGet_neg_one lines hne]
  simp [hp]

/-- Witness for C9: a one-line input holding its own guard. -/
theorem c9_lookback_wraparound_witness :
    guardScan ["if n > 0:".toList] divGuardLine 1 5 = some true ∧
    validate "result = a / b if b > 0 else 0".toList = some [] :=
  (c9_lookback_wraparound ["if n > 0:".toList] divGuardLine 1 5 (by decide)
    (by decide) (by decide) (by decide)).2

/-- C10: a freshly constructed validator has an empty issue list, so both
    predicates are false, both counts are zero, and the report is the fixed
    no-issues message. -/
theorem c10_fresh_validator :
    QuantConnectValidator.new.issues = [] ∧
    QuantConnectValidator.new.has_errors = false ∧
    QuantConnectValidator.new.has_warnings = false ∧
    QuantConnectValidator.new.get_error_count = 0 ∧
    QuantConnectValidator.new.get_warning_count = 0 ∧
    QuantConnectValidator.new.format_report = noIssuesMessage :=
  ⟨rfl, rfl, rfl, rfl, rfl, rfl⟩
